import Mathlib

/-
  Shallow embedding of src/teloader.py, the BinaryView loader for UEFI
  Terse Executables (TE).  Byte buffers are lists of naturals; Python
  slicing, struct.unpack and str.decode are modelled explicitly, and the
  host registration calls (add_auto_segment, add_auto_section,
  define_user_data_var, add_entry_point) are modelled as values collected
  into a load trace.  A Python exception during init is modelled by the
  trace's ok flag being false; everything registered before the exception
  stays in the trace, as it stays registered in the host.
-/

namespace TELoader

/-- Byte buffers: a Python bytes object as a list of byte values. -/
abbrev Buffer := List Nat

/-- TERSE_IMAGE_HEADER_SIZE from teloader.py. -/
def TERSE_IMAGE_HEADER_SIZE : Nat := 40

/-- SECTION_HEADER_SIZE from teloader.py. -/
def SECTION_HEADER_SIZE : Nat := 40

/-- Python slice raw[a:b] (b an absolute index, clamped to the length). -/
def pySlice (raw : Buffer) (a b : Nat) : Buffer :=
  (raw.drop a).take (b - a)

/-- Value of a byte string read little-endian, as Python struct.unpack does. -/
def leValue : Buffer → Nat
  | [] => 0
  | b :: rest => b + 256 * leValue rest

/-- struct.unpack of one little-endian field of `width` bytes: Python raises
struct.error unless the argument has exactly `width` bytes. -/
def unpackLE (width : Nat) (bs : Buffer) : Option Nat :=
  if bs.length = width then some (leValue bs) else none

/-- Continuation byte test for UTF-8 (0x80..0xBF). -/
def isCont (b : Nat) : Bool := decide (0x80 ≤ b ∧ b ≤ 0xBF)

/-- Lower bound of the first continuation byte after a given lead byte
(Unicode's restricted ranges, as CPython's codec enforces them). -/
def cont1Lo (lead : Nat) : Nat :=
  if lead = 0xE0 then 0xA0 else if lead = 0xF0 then 0x90 else 0x80

/-- Upper bound of the first continuation byte after a given lead byte. -/
def cont1Hi (lead : Nat) : Nat :=
  if lead = 0xED then 0x9F else if lead = 0xF4 then 0x8F else 0xBF

/-- First-continuation-byte test, depending on the lead byte. -/
def isCont1 (lead b : Nat) : Bool := decide (cont1Lo lead ≤ b ∧ b ≤ cont1Hi lead)

/-- Python bytes.decode with strict error handling: returns the list of code
points, or none when the bytes are not valid UTF-8 (UnicodeDecodeError). -/
def utf8Decode : Buffer → Option (List Nat)
  | [] => some []
  | b :: bs =>
    if b ≤ 0x7F then
      (utf8Decode bs).map (fun cs => b :: cs)
    else if 0xC2 ≤ b ∧ b ≤ 0xDF then
      match bs with
      | b1 :: bs1 =>
        if isCont b1 then
          (utf8Decode bs1).map (fun cs => ((b - 0xC0) * 0x40 + (b1 - 0x80)) :: cs)
        else none
      | [] => none
    else if 0xE0 ≤ b ∧ b ≤ 0xEF then
      match bs with
      | b1 :: b2 :: bs2 =>
        if isCont1 b b1 ∧ isCont b2 then
          (utf8Decode bs2).map (fun cs =>
            ((b - 0xE0) * 0x1000 + (b1 - 0x80) * 0x40 + (b2 - 0x80)) :: cs)
        else none
      | _ => none
    else if 0xF0 ≤ b ∧ b ≤ 0xF4 then
      match bs with
      | b1 :: b2 :: b3 :: bs3 =>
        if isCont1 b b1 ∧ isCont b2 ∧ isCont b3 then
          (utf8Decode bs3).map (fun cs =>
            ((b - 0xF0) * 0x40000 + (b1 - 0x80) * 0x1000 +
              (b2 - 0x80) * 0x40 + (b3 - 0x80)) :: cs)
        else none
      | _ => none
    else none

/-- Python bytes.decode with the replace error handler: invalid input never
raises; each maximal invalid subpart becomes U+FFFD (0xFFFD). -/
def utf8DecodeReplace : Buffer → List Nat
  | [] => []
  | b :: bs =>
    if b ≤ 0x7F then
      b :: utf8DecodeReplace bs
    else if 0xC2 ≤ b ∧ b ≤ 0xDF then
      match bs with
      | b1 :: bs1 =>
        if isCont b1 then ((b - 0xC0) * 0x40 + (b1 - 0x80)) :: utf8DecodeReplace bs1
        else 0xFFFD :: utf8DecodeReplace (b1 :: bs1)
      | [] => [0xFFFD]
    else if 0xE0 ≤ b ∧ b ≤ 0xEF then
      match bs with
      | b1 :: bs1 =>
        if isCont1 b b1 then
          match bs1 with
          | b2 :: bs2 =>
            if isCont b2 then
              ((b - 0xE0) * 0x1000 + (b1 - 0x80) * 0x40 + (b2 - 0x80)) ::
                utf8DecodeReplace bs2
            else 0xFFFD :: utf8DecodeReplace (b2 :: bs2)
          | [] => [0xFFFD]
        else 0xFFFD :: utf8DecodeReplace (b1 :: bs1)
      | [] => [0xFFFD]
    else if 0xF0 ≤ b ∧ b ≤ 0xF4 then
      match bs with
      | b1 :: bs1 =>
        if isCont1 b b1 then
          match bs1 with
          | b2 :: bs2 =>
            if isCont b2 then
              match bs2 with
              | b3 :: bs3 =>
                if isCont b3 then
                  ((b - 0xF0) * 0x40000 + (b1 - 0x80) * 0x1000 +
                    (b2 - 0x80) * 0x40 + (b3 - 0x80)) :: utf8DecodeReplace bs3
                else 0xFFFD :: utf8DecodeReplace (b3 :: bs3)
              | [] => [0xFFFD]
            else 0xFFFD :: utf8DecodeReplace (b2 :: bs2)
          | [] => [0xFFFD]
        else 0xFFFD :: utf8DecodeReplace (b1 :: bs1)
      | [] => [0xFFFD]
    else 0xFFFD :: utf8DecodeReplace bs

/-- is_valid_for_data from teloader.py: length at least 40 and the first two
bytes, decoded with the replace handler, equal to the string VZ
(code points 86, 90). -/
def is_valid_for_data (data : Buffer) : Bool :=
  if data.length < TERSE_IMAGE_HEADER_SIZE then false
  else if utf8DecodeReplace (pySlice data 0 2) ≠ [86, 90] then false
  else true

/-- The three Binary Ninja platforms named by _set_platform. -/
inductive PlatformId
  | windows_x86
  | windows_x86_64
  | windows_aarch64
deriving DecidableEq

/-- Model of _set_platform from teloader.py: machine_type is a Python int (the loader
passes the value unpacked with format <H); none models leaving self.platform
unassigned. -/
def set_platform (machine_type : Int) : Option PlatformId :=
  if machine_type = 332 then some PlatformId.windows_x86
  else if machine_type = -31132 then some PlatformId.windows_x86_64
  else if machine_type = -21916 then some PlatformId.windows_aarch64
  else none

/-- One add_auto_segment registration: start address, length, file (data)
offset and length, and the three SegmentFlag permission bits. -/
structure Segment where
  start : Int
  length : Int
  dataOffset : Nat
  dataLength : Int
  readable : Bool
  writable : Bool
  executable : Bool
deriving DecidableEq

/-- Model of _create_segments from teloader.py: a read-only header region of size
40 + n*40 at image_base with file offset 0, then an RWX code region covering
the rest of the buffer. -/
def create_segments (raw : Buffer) (image_base : Int) (num_of_sections : Nat) :
    List Segment :=
  let headers_size : Nat :=
    TERSE_IMAGE_HEADER_SIZE + num_of_sections * SECTION_HEADER_SIZE
  let code_region_size : Int := (raw.length : Int) - (headers_size : Int)
  [ { start := image_base, length := (headers_size : Int), dataOffset := 0,
      dataLength := (headers_size : Int),
      readable := true, writable := false, executable := false },
    { start := image_base + (headers_size : Int), length := code_region_size,
      dataOffset := headers_size, dataLength := code_region_size,
      readable := true, writable := true, executable := true } ]

/-- The SectionSemantics values used by the loader. -/
inductive SectionSemantics
  | ReadOnlyCodeSectionSemantics
  | ReadWriteDataSectionSemantics
deriving DecidableEq

/-- One add_auto_section registration: decoded name (code points), start
address, length and semantics. -/
structure LogicalSection where
  name : List Nat
  start : Int
  length : Nat
  semantics : SectionSemantics
deriving DecidableEq

/-- The loop body of _create_sections, iterated count times from a given
base offset.  Each iteration decodes the 8 name bytes strictly, unpacks
virtual_size (record bytes 8..12) and virtual_addr (record bytes 12..16),
and registers the section; a UnicodeDecodeError or struct.error stops the
loop with the sections registered so far and the flag false. -/
def create_sections_go (raw : Buffer) (image_base : Int) :
    Nat → Nat → List LogicalSection × Bool
  | 0, _ => ([], true)
  | count + 1, base =>
    match utf8Decode (pySlice raw base (base + 8)),
          unpackLE 4 (pySlice raw (base + 8) (base + 12)),
          unpackLE 4 (pySlice raw (base + 12) (base + 16)) with
    | some name, some virtual_size, some virtual_addr =>
      let rest := create_sections_go raw image_base count (base + SECTION_HEADER_SIZE)
      ({ name := name, start := image_base + (virtual_addr : Int),
         length := virtual_size,
         semantics := SectionSemantics.ReadOnlyCodeSectionSemantics } :: rest.1,
       rest.2)
    | _, _, _ => ([], false)

/-- Model of _create_sections from teloader.py: iterate num_of_sections records
starting at offset TERSE_IMAGE_HEADER_SIZE. -/
def create_sections (raw : Buffer) (image_base : Int) (num_of_sections : Nat) :
    List LogicalSection × Bool :=
  create_sections_go raw image_base num_of_sections TERSE_IMAGE_HEADER_SIZE

/-- Python range(start, stop, step) for positive step, as a list. -/
def pyRange (start stop step : Nat) : List Nat :=
  (List.range ((stop - start + step - 1) / step)).map (fun k => start + k * step)

/-- One define_user_data_var and gSectionHdr symbol: its address and the
number embedded in the symbol name (i - 40 for loop index i). -/
structure DataVarBinding where
  addr : Int
  nameIdx : Nat
deriving DecidableEq

/-- The bindings made by _apply_header_types: the gTEImageHdr variable at
image_base, and one gSectionHdr variable per loop index. -/
structure HeaderTypeBindings where
  headerVarAddr : Int
  sectionVars : List DataVarBinding
deriving DecidableEq

/-- Model of _apply_header_types from teloader.py: binds the header type at
image_base and a section-header type at image_base + i for every i in
range(TERSE_IMAGE_HEADER_SIZE, num_of_sections*(SECTION_HEADER_SIZE+1),
SECTION_HEADER_SIZE), with symbol gSectionHdr followed by i - 40. -/
def apply_header_types (image_base : Int) (num_of_sections : Nat) :
    HeaderTypeBindings :=
  { headerVarAddr := image_base,
    sectionVars :=
      (pyRange TERSE_IMAGE_HEADER_SIZE
          (num_of_sections * (SECTION_HEADER_SIZE + 1)) SECTION_HEADER_SIZE).map
        (fun (i : Nat) => { addr := image_base + (i : Int), nameIdx := i - 40 }) }

/-- Everything init registered with the host, plus whether init returned
normally (ok = true) or raised (ok = false; what was registered before the
exception stays). -/
structure LoadTrace where
  platform : Option PlatformId
  segments : List Segment
  sections : List LogicalSection
  headerBindings : Option HeaderTypeBindings
  entry : Option Int
  ok : Bool
deriving DecidableEq

/-- Trace of an init that raised before registering anything. -/
def failedTrace : LoadTrace :=
  { platform := none, segments := [], sections := [], headerBindings := none,
    entry := none, ok := false }

/-- init from teloader.py: unpack machine (<H at 2), stripped_size (<H at 6),
image_base (<Q at 16) and num_of_sections (ord of byte 4); set the platform;
create segments at image_base + header_ofs; create sections at image_base;
apply header types; register the entry point at entry + image_base. -/
def init (raw : Buffer) : LoadTrace :=
  match unpackLE 2 (pySlice raw 2 4), unpackLE 2 (pySlice raw 6 8),
        unpackLE 8 (pySlice raw 16 24), raw.get? 4 with
  | some machine, some stripped_size, some image_base, some num_of_sections =>
    let plat := set_platform (machine : Int)
    let header_ofs : Int := (stripped_size : Int) - (TERSE_IMAGE_HEADER_SIZE : Int)
    let segments := create_segments raw ((image_base : Int) + header_ofs) num_of_sections
    let secs := create_sections raw (image_base : Int) num_of_sections
    if secs.2 then
      match unpackLE 4 (pySlice raw 8 12) with
      | some entry =>
        { platform := plat, segments := segments, sections := secs.1,
          headerBindings := some (apply_header_types ((image_base : Int) + header_ofs)
            num_of_sections),
          entry := some ((entry : Int) + (image_base : Int)), ok := true }
      | none =>
        { platform := plat, segments := segments, sections := secs.1,
          headerBindings := some (apply_header_types ((image_base : Int) + header_ofs)
            num_of_sections),
          entry := none, ok := false }
    else
      { platform := plat, segments := segments, sections := secs.1,
        headerBindings := none, entry := none, ok := false }
  | _, _, _, _ => failedTrace

/-- perform_get_entry_point from teloader.py: image_base (<Q at 16) plus the
entry offset (<I at 8). -/
def perform_get_entry_point (raw : Buffer) : Option Int :=
  match unpackLE 8 (pySlice raw 16 24), unpackLE 4 (pySlice raw 8 12) with
  | some image_base, some entry => some ((image_base : Int) + (entry : Int))
  | _, _ => none

/-- perform_is_executable from teloader.py. -/
def perform_is_executable : Bool := true

/-- Named readers for the header fields init consumes, for stating theorems. -/
def machineOf (raw : Buffer) : Nat := leValue (pySlice raw 2 4)

/-- Reader for the 16-bit stripped-size field at offset 6. -/
def strippedSizeOf (raw : Buffer) : Nat := leValue (pySlice raw 6 8)

/-- Reader for the 64-bit image-base field at offset 16. -/
def imageBaseOf (raw : Buffer) : Nat := leValue (pySlice raw 16 24)

/-- Reader for the 32-bit entry-point offset field at offset 8. -/
def entryOfsOf (raw : Buffer) : Nat := leValue (pySlice raw 8 12)

/-- Reader for the 8-bit section count at offset 4. -/
def numSectionsOf (raw : Buffer) : Nat := (raw.get? 4).getD 0

/-- The 100-byte scenario buffer of the spec: signature VZ, machine 332,
one section named .text (padded with NUL bytes) of virtual size 20 at
virtual address 0x50, stripped size 40, entry offset 0x10, image base
0x1000, 20 bytes of code after the 80 header bytes. -/
def sampleBuf : Buffer :=
  [86, 90, 76, 1, 1, 0, 40, 0, 16, 0, 0, 0, 0, 0, 0, 0,
   0, 16, 0, 0, 0, 0, 0, 0] ++ List.replicate 16 0 ++
  [46, 116, 101, 120, 116, 0, 0, 0, 20, 0, 0, 0, 80, 0, 0, 0] ++
  List.replicate 24 0 ++ List.replicate 20 0

/-- sampleBuf with the machine field replaced by the x86-64 magic 0x8664
(bytes 0x64 0x86 little-endian). -/
def machine8664Buf : Buffer :=
  [86, 90, 100, 134, 1, 0, 40, 0, 16, 0, 0, 0, 0, 0, 0, 0,
   0, 16, 0, 0, 0, 0, 0, 0] ++ List.replicate 16 0 ++
  [46, 116, 101, 120, 116, 0, 0, 0, 20, 0, 0, 0, 80, 0, 0, 0] ++
  List.replicate 24 0 ++ List.replicate 20 0

/-- sampleBuf with the machine field replaced by 0, a code recognized by
nobody. -/
def unknownMachineBuf : Buffer :=
  [86, 90, 0, 0, 1, 0, 40, 0, 16, 0, 0, 0, 0, 0, 0, 0,
   0, 16, 0, 0, 0, 0, 0, 0] ++ List.replicate 16 0 ++
  [46, 116, 101, 120, 116, 0, 0, 0, 20, 0, 0, 0, 80, 0, 0, 0] ++
  List.replicate 24 0 ++ List.replicate 20 0

/-- A 120-byte buffer whose header declares five sections while only two
40-byte section records fit behind the 40 header bytes. -/
def truncatedBuf : Buffer :=
  [86, 90, 76, 1, 5, 0, 40, 0, 16, 0, 0, 0, 0, 0, 0, 0,
   0, 16, 0, 0, 0, 0, 0, 0] ++ List.replicate 16 0 ++ List.replicate 80 0

/-- An 80-byte buffer with one section whose name bytes start with 0xFF,
which no UTF-8 decoding accepts. -/
def badNameBuf : Buffer :=
  [86, 90, 76, 1, 1, 0, 40, 0, 16, 0, 0, 0, 0, 0, 0, 0,
   0, 16, 0, 0, 0, 0, 0, 0] ++ List.replicate 16 0 ++
  [255, 0, 0, 0, 0, 0, 0, 0, 20, 0, 0, 0, 80, 0, 0, 0] ++
  List.replicate 24 0

/-! Basic lemmas about slicing, unpacking and the validity gate. -/

theorem pySlice_length (raw : Buffer) (a b : Nat) :
    (pySlice raw a b).length = min (b - a) (raw.length - a) := by
  simp [pySlice]

theorem unpackLE_pySlice_some (raw : Buffer) (a b w : Nat)
    (hw : b - a = w) (hab : a ≤ b) (h : b ≤ raw.length) :
    unpackLE w (pySlice raw a b) = some (leValue (pySlice raw a b)) := by
  unfold unpackLE
  rw [if_pos]
  rw [pySlice_length]
  omega

theorem unpackLE_pySlice_none (raw : Buffer) (a b w : Nat)
    (hw : b - a = w) (h0 : 0 < w) (h : raw.length < b) :
    unpackLE w (pySlice raw a b) = none := by
  unfold unpackLE
  rw [if_neg]
  rw [pySlice_length]
  omega

theorem length_ge_40_of_valid (raw : Buffer) (hv : is_valid_for_data raw = true) :
    40 ≤ raw.length := by
  unfold is_valid_for_data TERSE_IMAGE_HEADER_SIZE at hv
  split_ifs at hv with h1 h2
  omega

theorem get4_eq_numSectionsOf (raw : Buffer) (h : 4 < raw.length) :
    raw.get? 4 = some (numSectionsOf raw) := by
  rcases hg : raw.get? 4 with _ | v
  · rw [List.get?_eq_none] at hg
    omega
  · unfold numSectionsOf
    rw [hg]
    rfl

theorem init_eq_of_valid (raw : Buffer) (hv : is_valid_for_data raw = true) :
    init raw =
      (if (create_sections raw (imageBaseOf raw : Int) (numSectionsOf raw)).2 then
        { platform := set_platform (machineOf raw : Int),
          segments := create_segments raw
            ((imageBaseOf raw : Int) + ((strippedSizeOf raw : Int) - 40))
            (numSectionsOf raw),
          sections := (create_sections raw (imageBaseOf raw : Int) (numSectionsOf raw)).1,
          headerBindings := some (apply_header_types
            ((imageBaseOf raw : Int) + ((strippedSizeOf raw : Int) - 40))
            (numSectionsOf raw)),
          entry := some ((entryOfsOf raw : Int) + (imageBaseOf raw : Int)), ok := true }
      else
        { platform := set_platform (machineOf raw : Int),
          segments := create_segments raw
            ((imageBaseOf raw : Int) + ((strippedSizeOf raw : Int) - 40))
            (numSectionsOf raw),
          sections := (create_sections raw (imageBaseOf raw : Int) (numSectionsOf raw)).1,
          headerBindings := none, entry := none, ok := false }) := by
  have h40 : 40 ≤ raw.length := length_ge_40_of_valid raw hv
  have hm : unpackLE 2 (pySlice raw 2 4) = some (machineOf raw) :=
    unpackLE_pySlice_some raw 2 4 2 rfl (by omega) (by omega)
  have hs : unpackLE 2 (pySlice raw 6 8) = some (strippedSizeOf raw) :=
    unpackLE_pySlice_some raw 6 8 2 rfl (by omega) (by omega)
  have hib : unpackLE 8 (pySlice raw 16 24) = some (imageBaseOf raw) :=
    unpackLE_pySlice_some raw 16 24 8 rfl (by omega) (by omega)
  have he : unpackLE 4 (pySlice raw 8 12) = some (entryOfsOf raw) :=
    unpackLE_pySlice_some raw 8 12 4 rfl (by omega) (by omega)
  have hn : raw.get? 4 = some (numSectionsOf raw) :=
    get4_eq_numSectionsOf raw (by omega)
  rw [init, hm, hs, hib, hn]
  simp only [he, TERSE_IMAGE_HEADER_SIZE]
  norm_num

/-! Characterization of the section-building loop. -/

theorem create_sections_go_eq (raw : Buffer) (ib : Int) :
    ∀ (count base : Nat) (names : Nat → List Nat),
      (∀ k, k < count → base + 40 * k + 16 ≤ raw.length) →
      (∀ k, k < count →
        utf8Decode (pySlice raw (base + 40 * k) (base + 40 * k + 8)) = some (names k)) →
      create_sections_go raw ib count base =
        ((List.range count).map (fun k =>
          { name := names k,
            start := ib +
              (leValue (pySlice raw (base + 40 * k + 12) (base + 40 * k + 16)) : Int),
            length := leValue (pySlice raw (base + 40 * k + 8) (base + 40 * k + 12)),
            semantics := SectionSemantics.ReadOnlyCodeSectionSemantics }), true) := by
  intro count
  induction count with
  | zero =>
    intro base names h1 h2
    rfl
  | succ c ih =>
    intro base names hb hn
    have hb0 : base + 16 ≤ raw.length := by
      have := hb 0 (Nat.succ_pos c)
      omega
    have hn0 : utf8Decode (pySlice raw base (base + 8)) = some (names 0) := by
      have h := hn 0 (Nat.succ_pos c)
      rw [show base + 40 * 0 = base from by ring] at h
      exact h
    have hvs : unpackLE 4 (pySlice raw (base + 8) (base + 12)) =
        some (leValue (pySlice raw (base + 8) (base + 12))) :=
      unpackLE_pySlice_some raw (base + 8) (base + 12) 4 (by omega) (by omega) (by omega)
    have hva : unpackLE 4 (pySlice raw (base + 12) (base + 16)) =
        some (leValue (pySlice raw (base + 12) (base + 16))) :=
      unpackLE_pySlice_some raw (base + 12) (base + 16) 4 (by omega) (by omega) (by omega)
    have hrec := ih (base + 40) (fun k => names (k + 1))
      (by
        intro k hk
        have := hb (k + 1) (by omega)
        omega)
      (by
        intro k hk
        have h := hn (k + 1) (by omega)
        rw [show base + 40 * (k + 1) = base + 40 + 40 * k from by ring] at h
        exact h)
    rw [create_sections_go, hn0, hvs, hva]
    simp only [SECTION_HEADER_SIZE]
    rw [hrec, List.range_succ_eq_map, List.map_cons, List.map_map]
    simp only [Prod.mk.injEq, List.cons.injEq]
    refine ⟨⟨?_, ?_⟩, trivial⟩
    · norm_num
    · refine List.map_congr_left ?_
      intro k hk
      simp only [Function.comp, Nat.succ_eq_add_one]
      ring_nf

theorem create_sections_go_fails (raw : Buffer) (ib : Int) :
    ∀ (count base : Nat), 1 ≤ count → raw.length < base + 40 * (count - 1) + 16 →
      (create_sections_go raw ib count base).2 = false := by
  intro count
  induction count with
  | zero =>
    intro base h1 h2
    omega
  | succ c ih =>
    intro base h1 hlen
    rw [create_sections_go]
    rcases hname : utf8Decode (pySlice raw base (base + 8)) with _ | name
    · rfl
    rcases hvs : unpackLE 4 (pySlice raw (base + 8) (base + 12)) with _ | vs
    · rfl
    rcases hva : unpackLE 4 (pySlice raw (base + 12) (base + 16)) with _ | va
    · rfl
    have h16 : base + 16 ≤ raw.length := by
      by_contra hcon
      rw [unpackLE_pySlice_none raw (base + 12) (base + 16) 4 (by omega) (by omega)
        (by omega)] at hva
      exact Option.noConfusion hva
    have hc1 : 1 ≤ c := by omega
    have := ih (base + 40) hc1 (by omega)
    simp only [SECTION_HEADER_SIZE]
    exact this

/-! Lemmas about the replace-mode decoder on the two signature bytes. -/

theorem utf8DecodeReplace_single (b : Nat) :
    utf8DecodeReplace [b] = if b ≤ 0x7F then [b] else [0xFFFD] := by
  rw [utf8DecodeReplace]
  split_ifs <;> rfl

theorem utf8DecodeReplace_pair_cases (b0 b1 : Nat) :
    (b0 ≤ 0x7F ∧ utf8DecodeReplace [b0, b1] = b0 :: utf8DecodeReplace [b1]) ∨
    (∃ v, 0x7F < v ∧ utf8DecodeReplace [b0, b1] = v :: utf8DecodeReplace [b1]) ∨
    (∃ v, 0x7F < v ∧ utf8DecodeReplace [b0, b1] = [v]) := by
  rw [utf8DecodeReplace]
  by_cases h1 : b0 ≤ 0x7F
  · left
    rw [if_pos h1]
    exact ⟨h1, rfl⟩
  rw [if_neg h1]
  by_cases h2 : 0xC2 ≤ b0 ∧ b0 ≤ 0xDF
  · rw [if_pos h2]
    by_cases hc : isCont b1
    · right; right
      refine ⟨(b0 - 0xC0) * 0x40 + (b1 - 0x80), ?_, ?_⟩
      · omega
      · simp [hc]
        rfl
    · right; left
      refine ⟨0xFFFD, by omega, ?_⟩
      simp [hc]
  rw [if_neg h2]
  by_cases h3 : 0xE0 ≤ b0 ∧ b0 ≤ 0xEF
  · rw [if_pos h3]
    by_cases hc1 : isCont1 b0 b1
    · right; right
      exact ⟨0xFFFD, by omega, by simp [hc1]⟩
    · right; left
      exact ⟨0xFFFD, by omega, by simp [hc1]⟩
  rw [if_neg h3]
  by_cases h4 : 0xF0 ≤ b0 ∧ b0 ≤ 0xF4
  · rw [if_pos h4]
    by_cases hc1 : isCont1 b0 b1
    · right; right
      exact ⟨0xFFFD, by omega, by simp [hc1]⟩
    · right; left
      exact ⟨0xFFFD, by omega, by simp [hc1]⟩
  rw [if_neg h4]
  right; left
  exact ⟨0xFFFD, by omega, rfl⟩

theorem utf8DecodeReplace_pair_eq_VZ (b0 b1 : Nat) :
    utf8DecodeReplace [b0, b1] = [86, 90] ↔ b0 = 86 ∧ b1 = 90 := by
  constructor
  · intro h
    rcases utf8DecodeReplace_pair_cases b0 b1 with ⟨h1, he⟩ | ⟨v, hv, he⟩ | ⟨v, hv, he⟩
    · rw [he, utf8DecodeReplace_single] at h
      split_ifs at h with h5
      · simp only [List.cons.injEq, List.nil_eq] at h
        exact ⟨h.1, h.2.1⟩
      · simp only [List.cons.injEq] at h
        omega
    · rw [he] at h
      simp only [List.cons.injEq] at h
      omega
    · rw [he] at h
      simp only [List.cons.injEq] at h
      exact absurd h.2 (by simp)
  · rintro ⟨h0, h1⟩
    subst h0
    subst h1
    rfl

/-! Claim theorems. -/

/-- Claim C8: the format detector accepts a buffer exactly when it is at
least 40 bytes long and its first two bytes are V (86) and Z (90); short
buffers are rejected by the length test alone, and nothing past the first
two bytes is examined. -/
theorem is_valid_iff_len40_and_VZ (data : Buffer) :
    is_valid_for_data data = true ↔ 40 ≤ data.length ∧ data.take 2 = [86, 90] := by
  unfold is_valid_for_data TERSE_IMAGE_HEADER_SIZE
  by_cases hlen : data.length < 40
  · rw [if_pos hlen]
    simp
    omega
  rw [if_neg hlen]
  rcases data with _ | ⟨b0, t⟩
  · simp at hlen
  rcases t with _ | ⟨b1, rest⟩
  · simp at hlen
  have hslice : pySlice (b0 :: b1 :: rest) 0 2 = [b0, b1] := by
    simp [pySlice]
  rw [hslice]
  constructor
  · intro h
    split_ifs at h with hd
    · push_neg at hd
      rw [utf8DecodeReplace_pair_eq_VZ] at hd
      refine ⟨by simpa using hlen, ?_⟩
      simp [hd.1, hd.2]
  · rintro ⟨h40, htake⟩
    simp only [List.take_succ_cons, List.take_zero, List.cons.injEq, and_true] at htake
    have hvz : utf8DecodeReplace [b0, b1] = [86, 90] :=
      (utf8DecodeReplace_pair_eq_VZ b0 b1).mpr ⟨htake.1, htake.2⟩
    simp [hvz]

/-- Claim C2: evidence of the signedness bug.  _set_platform does map the
Python int 332 to x86 and would map -31132 to x86-64, but init unpacks the
machine field with the unsigned format <H, so the field bit pattern 0x8664
arrives as 34404 and matches nothing: the load leaves the platform
unresolved instead of resolving x86-64. -/
theorem set_platform_unsigned_read_misses_wide_machines :
    set_platform 332 = some PlatformId.windows_x86 ∧
    set_platform (-31132) = some PlatformId.windows_x86_64 ∧
    set_platform (-21916) = some PlatformId.windows_aarch64 ∧
    set_platform ((0x8664 : Nat) : Int) = none ∧
    set_platform ((0xAA64 : Nat) : Int) = none ∧
    machineOf machine8664Buf = 0x8664 ∧
    is_valid_for_data machine8664Buf = true ∧
    (init machine8664Buf).platform = none ∧
    (init machine8664Buf).ok = true := by
  decide

/-- Claim C4: evidence of the loop-bound bug.  The range
range(40, n*(40+1), 40) that _apply_header_types iterates has exactly n
elements only while n is at most 40; at n = 41 it has 42 elements, so a
42nd section-header instance is bound one slot past the 41-entry table
(at offset 1680 from the header start, symbol index 1640). -/
theorem apply_header_types_overcounts_at_41 :
    (apply_header_types 4096 41).sectionVars.length = 42 ∧
    (apply_header_types 4096 40).sectionVars.length = 40 ∧
    (apply_header_types 4096 41).sectionVars.getLast? =
      some { addr := 4096 + 1680, nameIdx := 1640 } := by
  decide

/-- Claim C10: a valid TE buffer (length 80, signature VZ, one in-bounds
section record) whose section name bytes start with 0xFF, which is never
valid UTF-8, makes the strict decode in _create_sections raise, so the
whole load fails with no section emitted. -/
theorem invalid_utf8_name_fails_load :
    is_valid_for_data badNameBuf = true ∧
    numSectionsOf badNameBuf = 1 ∧
    40 + 40 * numSectionsOf badNameBuf ≤ badNameBuf.length ∧
    utf8Decode (pySlice badNameBuf 40 48) = none ∧
    (init badNameBuf).sections = [] ∧
    (init badNameBuf).ok = false := by
  decide

/-- Claim C3, counterexample: a valid 120-byte buffer declaring five
sections (the table would need 240 bytes).  The load does fail, but only
after registering the two memory regions and the two sections whose
records fit, so it does not register zero regions and zero sections as
the claim states. -/
theorem truncated_table_registers_regions_cex :
    is_valid_for_data truncatedBuf = true ∧
    numSectionsOf truncatedBuf = 5 ∧
    truncatedBuf.length < 40 + 40 * numSectionsOf truncatedBuf ∧
    (init truncatedBuf).ok = false ∧
    (init truncatedBuf).segments.length = 2 ∧
    (init truncatedBuf).sections.length = 2 := by
  decide

/-- Claim C3 (amended): there is no bound re-validation; when some section
record's virtualSize/virtualAddress field extends past the buffer (which
happens whenever bufferLength < 40*numberOfSections + 16 and there is at
least one section), the load fails fatally with an unpack error during
section iteration, with the two memory regions already registered. -/
theorem truncated_table_fails_after_registering_regions (raw : Buffer)
    (hv : is_valid_for_data raw = true) (h1 : 1 ≤ numSectionsOf raw)
    (hlen : raw.length < 40 * numSectionsOf raw + 16) :
    (init raw).ok = false ∧ (init raw).segments.length = 2 := by
  have hfail : (create_sections raw (imageBaseOf raw : Int) (numSectionsOf raw)).2
      = false := by
    unfold create_sections TERSE_IMAGE_HEADER_SIZE
    exact create_sections_go_fails raw _ (numSectionsOf raw) 40 h1 (by omega)
  rw [init_eq_of_valid raw hv, if_neg (by rw [hfail]; exact Bool.false_ne_true)]
  exact ⟨rfl, rfl⟩

/-- Witness for the amended C3 theorem at the concrete truncated buffer. -/
theorem truncated_table_fails_witness :
    is_valid_for_data truncatedBuf = true ∧
    1 ≤ numSectionsOf truncatedBuf ∧
    truncatedBuf.length < 40 * numSectionsOf truncatedBuf + 16 ∧
    ((init truncatedBuf).ok = false ∧ (init truncatedBuf).segments.length = 2) :=
  ⟨by decide, by decide, by decide,
    truncated_table_fails_after_registering_regions truncatedBuf (by decide) (by decide)
      (by decide)⟩

/-- Claim C1: on a valid TE buffer whose header region fits, init registers
exactly two regions: a read-only header region of size 40 + n*40 at
imageBase + (strippedSize - 40) with file offset 0, and an RWX code region
immediately after it covering the rest of the buffer with file offset
40 + n*40; the two sizes sum to the buffer length and the code region size
is nonnegative, so the regions partition the buffer. -/
theorem layout_two_regions_partition (raw : Buffer)
    (hv : is_valid_for_data raw = true)
    (hbound : 40 + numSectionsOf raw * 40 ≤ raw.length) :
    (init raw).segments =
      [ { start := (imageBaseOf raw : Int) + ((strippedSizeOf raw : Int) - 40),
          length := ((40 + numSectionsOf raw * 40 : Nat) : Int),
          dataOffset := 0,
          dataLength := ((40 + numSectionsOf raw * 40 : Nat) : Int),
          readable := true, writable := false, executable := false },
        { start := (imageBaseOf raw : Int) + ((strippedSizeOf raw : Int) - 40) +
            ((40 + numSectionsOf raw * 40 : Nat) : Int),
          length := (raw.length : Int) - ((40 + numSectionsOf raw * 40 : Nat) : Int),
          dataOffset := 40 + numSectionsOf raw * 40,
          dataLength := (raw.length : Int) - ((40 + numSectionsOf raw * 40 : Nat) : Int),
          readable := true, writable := true, executable := true } ] ∧
    ((40 + numSectionsOf raw * 40 : Nat) : Int) +
      ((raw.length : Int) - ((40 + numSectionsOf raw * 40 : Nat) : Int))
      = (raw.length : Int) ∧
    (0 : Int) ≤ (raw.length : Int) - ((40 + numSectionsOf raw * 40 : Nat) : Int) := by
  refine ⟨?_, by ring, by push_cast; omega⟩
  have hseg : (init raw).segments = create_segments raw
      ((imageBaseOf raw : Int) + ((strippedSizeOf raw : Int) - 40))
      (numSectionsOf raw) := by
    rw [init_eq_of_valid raw hv]
    split_ifs <;> rfl
  rw [hseg]
  unfold create_segments TERSE_IMAGE_HEADER_SIZE SECTION_HEADER_SIZE
  norm_num

/-- Witness for the C1 theorem at the 100-byte scenario buffer. -/
theorem layout_two_regions_partition_witness :
    is_valid_for_data sampleBuf = true ∧
    40 + numSectionsOf sampleBuf * 40 ≤ sampleBuf.length ∧
    ((init sampleBuf).segments =
      [ { start := 4096, length := 80, dataOffset := 0, dataLength := 80,
          readable := true, writable := false, executable := false },
        { start := 4176, length := 20, dataOffset := 80, dataLength := 20,
          readable := true, writable := true, executable := true } ] ∧
      ((40 + numSectionsOf sampleBuf * 40 : Nat) : Int) +
        ((sampleBuf.length : Int) - ((40 + numSectionsOf sampleBuf * 40 : Nat) : Int))
        = (sampleBuf.length : Int) ∧
      (0 : Int) ≤ (sampleBuf.length : Int) -
        ((40 + numSectionsOf sampleBuf * 40 : Nat) : Int)) := by
  refine ⟨by decide, by decide, ?_⟩
  have h := layout_two_regions_partition sampleBuf (by decide) (by decide)
  refine ⟨?_, h.2.1, h.2.2⟩
  rw [h.1]
  decide

/-- Claim C5, counterexample: on the scenario buffer whose section name
bytes are .text followed by three NUL padding bytes, the emitted section
name keeps all eight decoded bytes; it is not trimmed of the trailing
padding as the claim states. -/
theorem section_name_untrimmed_cex :
    is_valid_for_data sampleBuf = true ∧
    (init sampleBuf).sections.map LogicalSection.name =
      [[46, 116, 101, 120, 116, 0, 0, 0]] ∧
    [[46, 116, 101, 120, 116, 0, 0, 0]] ≠ [([46, 116, 101, 120, 116] : List Nat)] := by
  decide

/-- Claim C5 (amended): on a valid TE buffer whose section records lie in
bounds and whose name bytes are valid UTF-8, init emits exactly
numberOfSections LogicalSections, the k-th taken from the 40-byte record
at offset 40 + 40*k: its name is the strict UTF-8 decoding of all 8 name
bytes (trailing padding retained), its size is virtualSize (record bytes
8..12), its start is imageBase + virtualAddress (record bytes 12..16), and
its semantics is fixed to read-only code. -/
theorem create_sections_emits_n_untrimmed (raw : Buffer) (names : Nat → List Nat)
    (hv : is_valid_for_data raw = true)
    (hbound : ∀ k, k < numSectionsOf raw → 40 + 40 * k + 16 ≤ raw.length)
    (hnames : ∀ k, k < numSectionsOf raw →
      utf8Decode (pySlice raw (40 + 40 * k) (40 + 40 * k + 8)) = some (names k)) :
    (init raw).sections.length = numSectionsOf raw ∧
    (init raw).sections = (List.range (numSectionsOf raw)).map (fun k =>
      { name := names k,
        start := (imageBaseOf raw : Int) +
          (leValue (pySlice raw (40 + 40 * k + 12) (40 + 40 * k + 16)) : Int),
        length := leValue (pySlice raw (40 + 40 * k + 8) (40 + 40 * k + 12)),
        semantics := SectionSemantics.ReadOnlyCodeSectionSemantics }) := by
  have hgo := create_sections_go_eq raw (imageBaseOf raw : Int) (numSectionsOf raw)
    40 names hbound hnames
  have hsec : create_sections raw (imageBaseOf raw : Int) (numSectionsOf raw) =
      ((List.range (numSectionsOf raw)).map (fun k =>
        { name := names k,
          start := (imageBaseOf raw : Int) +
            (leValue (pySlice raw (40 + 40 * k + 12) (40 + 40 * k + 16)) : Int),
          length := leValue (pySlice raw (40 + 40 * k + 8) (40 + 40 * k + 12)),
          semantics := SectionSemantics.ReadOnlyCodeSectionSemantics }), true) := by
    unfold create_sections TERSE_IMAGE_HEADER_SIZE
    exact hgo
  have hsections : (init raw).sections =
      (List.range (numSectionsOf raw)).map (fun k =>
        { name := names k,
          start := (imageBaseOf raw : Int) +
            (leValue (pySlice raw (40 + 40 * k + 12) (40 + 40 * k + 16)) : Int),
          length := leValue (pySlice raw (40 + 40 * k + 8) (40 + 40 * k + 12)),
          semantics := SectionSemantics.ReadOnlyCodeSectionSemantics }) := by
    rw [init_eq_of_valid raw hv]
    split_ifs <;> rw [hsec]
  refine ⟨?_, hsections⟩
  rw [hsections]
  simp

/-- Witness for the amended C5 theorem at the scenario buffer. -/
theorem create_sections_emits_n_untrimmed_witness :
    is_valid_for_data sampleBuf = true ∧
    ((init sampleBuf).sections.length = numSectionsOf sampleBuf ∧
      (init sampleBuf).sections =
        [ { name := [46, 116, 101, 120, 116, 0, 0, 0], start := 4176, length := 20,
            semantics := SectionSemantics.ReadOnlyCodeSectionSemantics } ]) := by
  have h := create_sections_emits_n_untrimmed sampleBuf
    (fun _ => [46, 116, 101, 120, 116, 0, 0, 0]) (by decide)
    (by decide) (by decide)
  refine ⟨by decide, h.1, ?_⟩
  rw [h.2]
  decide

/-- Every section the loop registers, even a loop that later fails, has
start address image_base plus the virtualAddress field of some record. -/
theorem create_sections_go_start_mem (raw : Buffer) (ib : Int) :
    ∀ (count base : Nat), ∀ s ∈ (create_sections_go raw ib count base).1,
      ∃ k, k < count ∧
        s.start = ib +
          (leValue (pySlice raw (base + 40 * k + 12) (base + 40 * k + 16)) : Int) := by
  intro count
  induction count with
  | zero =>
    intro base s hs
    simp [create_sections_go] at hs
  | succ c ih =>
    intro base s hs
    rw [create_sections_go] at hs
    rcases hname : utf8Decode (pySlice raw base (base + 8)) with _ | name
    · rw [hname] at hs
      simp at hs
    rcases hvs : unpackLE 4 (pySlice raw (base + 8) (base + 12)) with _ | vs
    · rw [hname, hvs] at hs
      simp at hs
    rcases hva : unpackLE 4 (pySlice raw (base + 12) (base + 16)) with _ | va
    · rw [hname, hvs, hva] at hs
      simp at hs
    rw [hname, hvs, hva] at hs
    simp only [List.mem_cons] at hs
    rcases hs with hs | hs
    · refine ⟨0, Nat.succ_pos c, ?_⟩
      have hval : va = leValue (pySlice raw (base + 12) (base + 16)) := by
        unfold unpackLE at hva
        split_ifs at hva
        exact (Option.some_inj.mp hva).symm
      rw [hs]
      rw [show base + 40 * 0 = base from by ring]
      rw [hval]
    · rcases ih (base + SECTION_HEADER_SIZE) s hs with ⟨k, hk, hstart⟩
      refine ⟨k + 1, by omega, ?_⟩
      rw [hstart]
      unfold SECTION_HEADER_SIZE
      ring_nf

/-- Claim C6: init places the header region at imageBase + headerOfs
(headerOfs = strippedSize - 40) but every emitted section at
imageBase + virtualAddress with no headerOfs term, so the two addressing
bases differ by exactly headerOfs. -/
theorem addressing_asymmetry_header_vs_sections (raw : Buffer)
    (hv : is_valid_for_data raw = true) :
    ((init raw).segments.head?.map Segment.start) =
      some ((imageBaseOf raw : Int) + ((strippedSizeOf raw : Int) - 40)) ∧
    (∀ s ∈ (init raw).sections, ∃ k, k < numSectionsOf raw ∧
      s.start = (imageBaseOf raw : Int) +
        (leValue (pySlice raw (40 + 40 * k + 12) (40 + 40 * k + 16)) : Int)) ∧
    ((imageBaseOf raw : Int) + ((strippedSizeOf raw : Int) - 40)) -
      (imageBaseOf raw : Int) = (strippedSizeOf raw : Int) - 40 := by
  refine ⟨?_, ?_, by ring⟩
  · rw [init_eq_of_valid raw hv]
    split_ifs <;> rfl
  · intro s hs
    have hsec : (init raw).sections =
        (create_sections raw (imageBaseOf raw : Int) (numSectionsOf raw)).1 := by
      rw [init_eq_of_valid raw hv]
      split_ifs <;> rfl
    rw [hsec] at hs
    unfold create_sections TERSE_IMAGE_HEADER_SIZE at hs
    exact create_sections_go_start_mem raw (imageBaseOf raw : Int)
      (numSectionsOf raw) 40 s hs

/-- Witness for the C6 theorem at the scenario buffer. -/
theorem addressing_asymmetry_witness :
    is_valid_for_data sampleBuf = true ∧
    (((init sampleBuf).segments.head?.map Segment.start) =
      some ((imageBaseOf sampleBuf : Int) + ((strippedSizeOf sampleBuf : Int) - 40)) ∧
    (∀ s ∈ (init sampleBuf).sections, ∃ k, k < numSectionsOf sampleBuf ∧
      s.start = (imageBaseOf sampleBuf : Int) +
        (leValue (pySlice sampleBuf (40 + 40 * k + 12) (40 + 40 * k + 16)) : Int)) ∧
    ((imageBaseOf sampleBuf : Int) + ((strippedSizeOf sampleBuf : Int) - 40)) -
      (imageBaseOf sampleBuf : Int) = (strippedSizeOf sampleBuf : Int) - 40) :=
  ⟨by decide, addressing_asymmetry_header_vs_sections sampleBuf (by decide)⟩

/-- Claim C7: the entry point resolved without a load is
imageBase + addressOfEntryPoint, computed from the raw image base at
offset 16 and the 32-bit entry offset at offset 8 with no headerOfs term,
and a successful init registers exactly that address. -/
theorem entry_point_uses_raw_image_base (raw : Buffer)
    (hv : is_valid_for_data raw = true) :
    perform_get_entry_point raw =
      some ((imageBaseOf raw : Int) + (entryOfsOf raw : Int)) ∧
    ((init raw).ok = true →
      (init raw).entry = some ((imageBaseOf raw : Int) + (entryOfsOf raw : Int))) := by
  have h40 := length_ge_40_of_valid raw hv
  constructor
  · unfold perform_get_entry_point
    rw [unpackLE_pySlice_some raw 16 24 8 rfl (by omega) (by omega),
      unpackLE_pySlice_some raw 8 12 4 rfl (by omega) (by omega)]
    rfl
  · intro hok
    rw [init_eq_of_valid raw hv] at hok ⊢
    split_ifs at hok ⊢ with hcond
    simp [Int.add_comm]

/-- Witness for the C7 theorem at the scenario buffer. -/
theorem entry_point_uses_raw_image_base_witness :
    is_valid_for_data sampleBuf = true ∧
    perform_get_entry_point sampleBuf = some 4112 ∧
    ((init sampleBuf).ok = true → (init sampleBuf).entry = some 4112) := by
  have h := entry_point_uses_raw_image_base sampleBuf (by decide)
  refine ⟨by decide, ?_, ?_⟩
  · rw [h.1]
    decide
  · intro hok
    rw [h.2 hok]
    decide

/-- Claim C9: a valid TE buffer whose machine field is none of 332, 0x8664
and 0xAA64 still loads: the platform stays unresolved while the two
regions, the n sections and the entry point are all produced and init
returns normally. -/
theorem unknown_machine_nonfatal (raw : Buffer) (names : Nat → List Nat)
    (hv : is_valid_for_data raw = true)
    (hm332 : machineOf raw ≠ 332)
    (hm8664 : machineOf raw ≠ 0x8664)
    (hmaa64 : machineOf raw ≠ 0xAA64)
    (hbound : ∀ k, k < numSectionsOf raw → 40 + 40 * k + 16 ≤ raw.length)
    (hnames : ∀ k, k < numSectionsOf raw →
      utf8Decode (pySlice raw (40 + 40 * k) (40 + 40 * k + 8)) = some (names k)) :
    (init raw).platform = none ∧
    (init raw).ok = true ∧
    (init raw).segments.length = 2 ∧
    (init raw).sections.length = numSectionsOf raw ∧
    (init raw).entry = some ((imageBaseOf raw : Int) + (entryOfsOf raw : Int)) := by
  have hplat : set_platform (machineOf raw : Int) = none := by
    unfold set_platform
    rw [if_neg (by omega), if_neg (by omega), if_neg (by omega)]
  have hgo := create_sections_go_eq raw (imageBaseOf raw : Int) (numSectionsOf raw)
    40 names hbound hnames
  have hsec2 : (create_sections raw (imageBaseOf raw : Int) (numSectionsOf raw)).2
      = true := by
    unfold create_sections TERSE_IMAGE_HEADER_SIZE
    rw [hgo]
  have hsec1 : (create_sections raw (imageBaseOf raw : Int) (numSectionsOf raw)).1.length
      = numSectionsOf raw := by
    unfold create_sections TERSE_IMAGE_HEADER_SIZE
    rw [hgo]
    simp
  rw [init_eq_of_valid raw hv, if_pos hsec2]
  refine ⟨hplat, rfl, rfl, hsec1, by simp [Int.add_comm]⟩

/-- Witness for the C9 theorem at the scenario buffer with machine 0. -/
theorem unknown_machine_nonfatal_witness :
    is_valid_for_data unknownMachineBuf = true ∧
    machineOf unknownMachineBuf = 0 ∧
    ((init unknownMachineBuf).platform = none ∧
      (init unknownMachineBuf).ok = true ∧
      (init unknownMachineBuf).segments.length = 2 ∧
      (init unknownMachineBuf).sections.length = numSectionsOf unknownMachineBuf ∧
      (init unknownMachineBuf).entry =
        some ((imageBaseOf unknownMachineBuf : Int) + (entryOfsOf unknownMachineBuf : Int))) :=
  ⟨by decide, by decide,
    unknown_machine_nonfatal unknownMachineBuf
      (fun _ => [46, 116, 101, 120, 116, 0, 0, 0])
      (by decide) (by decide) (by decide) (by decide) (by decide) (by decide)⟩

end TELoader
